import Mathlib

/-!
# Teleoperation loop and mechanism dispatch of the robot program

Shallow embedding of `src/src/main.cpp`.

* Hardware calls (`Motor::move`, `DigitalOut::set_value`, `Chassis::arcade`,
  `Chassis::turnToHeading`, `Chassis::setBrakeMode`, `pros::delay`) are recorded, in program
  order, as a list of `Effect`s.
* Hardware reads of one pass through the body of the `while (true)` loop of `opcontrol` are the
  fields of `Inputs`.
* `int` values are `Int` (the only arithmetic on them is the dead negation of `forward`).
* `float` heading values are idealised as exact rationals (`ℚ`).
-/

namespace Marshmallow

/-! ## Hardware objects and recorded effects -/

/-- The three intake/outtake motors declared in `include/main.h`. -/
inductive Motor where
  | front_bottom
  | middle
  | back_top
  deriving DecidableEq, Repr

/-- The two pneumatic outputs declared in `include/main.h`. -/
inductive Actuator where
  | gutter
  | pneumatic_d
  deriving DecidableEq, Repr

/-- The two brake modes used by `opcontrol`. -/
inductive BrakeMode where
  | E_MOTOR_BRAKE_COAST
  | E_MOTOR_BRAKE_HOLD
  deriving DecidableEq, Repr

/-- One call into the hardware / motion library, with its arguments. -/
inductive Effect where
  /-- The call `chassis.arcade(throttle, turn, disableDriveCurve, desaturateBias)`. -/
  | arcade (throttle turn : Int) (disableDriveCurve : Bool) (desaturateBias : ℚ)
  /-- The call `a.set_value(v)`. -/
  | set_value (a : Actuator) (v : Bool)
  /-- The call `chassis.turnToHeading(theta, timeout, {.maxSpeed = maxSpeed}, async)`. -/
  | turnToHeading (theta : ℚ) (timeout : Int) (maxSpeed : Int) (async : Bool)
  /-- The call `m.move(power)`. -/
  | move (m : Motor) (power : Int)
  /-- The call `chassis.setBrakeMode(mode)`. -/
  | setBrakeMode (mode : BrakeMode)
  /-- The call `pros::delay(ms)`. -/
  | delay (ms : Int)
  deriving DecidableEq

/-! ## Intake control functions (`main.cpp` lines 4-38) -/

/-- The condition `color_sensor.get_proximity() > 100` of `intake_store`. -/
def ballPresent (proximity : Int) : Bool :=
  decide (proximity > 100)

/-- Function `intake_store`; `proximity` is the value read from `color_sensor.get_proximity()`. -/
def intake_store (proximity : Int) : List Effect :=
  [Effect.move Motor.front_bottom (-127)] ++
  (if ballPresent proximity then
    [Effect.move Motor.middle 65]
  else
    [Effect.move Motor.middle 0]) ++
  [Effect.move Motor.back_top 0]

/-- Function `outtake_top`. -/
def outtake_top : List Effect :=
  [Effect.move Motor.front_bottom (-127), Effect.move Motor.middle 127,
   Effect.move Motor.back_top 127]

/-- Function `outtake_middle`. -/
def outtake_middle : List Effect :=
  [Effect.move Motor.front_bottom (-127), Effect.move Motor.middle 127,
   Effect.move Motor.back_top (-127)]

/-- Function `outtake_bottom`. -/
def outtake_bottom : List Effect :=
  [Effect.move Motor.front_bottom 127, Effect.move Motor.middle (-127),
   Effect.move Motor.back_top 0]

/-- Function `stop_intake`. -/
def stop_intake : List Effect :=
  [Effect.move Motor.front_bottom 0, Effect.move Motor.middle 0, Effect.move Motor.back_top 0]

/-! ## Heading alignment (`main.cpp` lines 147-161) -/

/-- Loop `while (current_heading < 0) current_heading += 360;`. -/
def addLoop (current_heading : ℚ) : ℚ :=
  if current_heading < 0 then addLoop (current_heading + 360) else current_heading
termination_by (⌈-current_heading / 360⌉).toNat
decreasing_by
  rename_i h
  have h1 : (-(current_heading + 360) / 360 : ℚ) = -current_heading / 360 - 1 := by ring
  have h2 : (0 : ℚ) < -current_heading / 360 := by
    apply div_pos <;> linarith
  have h3 : 0 < ⌈-current_heading / 360⌉ := Int.ceil_pos.mpr h2
  rw [h1, Int.ceil_sub_one]
  omega

/-- Loop `while (current_heading >= 360) current_heading -= 360;`. -/
def subLoop (current_heading : ℚ) : ℚ :=
  if current_heading ≥ 360 then subLoop (current_heading - 360) else current_heading
termination_by (⌊current_heading / 360⌋).toNat
decreasing_by
  rename_i h
  have h1 : ((current_heading - 360) / 360 : ℚ) = current_heading / 360 - 1 := by ring
  have h2 : (1 : ℚ) ≤ current_heading / 360 := by
    rw [le_div_iff₀ (by norm_num)]
    linarith
  have h3 : 1 ≤ ⌊current_heading / 360⌋ := by
    rw [Int.le_floor]
    exact_mod_cast h2
  rw [h1, Int.floor_sub_one]
  omega

/-- The two normalisation loops run one after the other on the heading `theta` read from
`chassis.getPose().theta`. -/
def normalizeHeading (theta : ℚ) : ℚ :=
  subLoop (addLoop theta)

/-- The same loop as `addLoop`, run for at most `fuel` evaluations of the loop condition: `none`
when the condition has not become false by then. -/
def addLoopFuel : Nat → ℚ → Option ℚ
  | 0, _ => none
  | fuel + 1, current_heading =>
    if current_heading < 0 then addLoopFuel fuel (current_heading + 360)
    else some current_heading

/-- The same loop as `subLoop`, run for at most `fuel` evaluations of the loop condition: `none`
when the condition has not become false by then. -/
def subLoopFuel : Nat → ℚ → Option ℚ
  | 0, _ => none
  | fuel + 1, current_heading =>
    if current_heading ≥ 360 then subLoopFuel fuel (current_heading - 360)
    else some current_heading

/-- Both normalisation loops, each bounded by `fuel` evaluations of its condition. -/
def normalizeHeadingFuel (fuel : Nat) (theta : ℚ) : Option ℚ :=
  (addLoopFuel fuel theta).bind (subLoopFuel fuel)

/-- Variable `diff_to_0` after lines 153-154, from the normalised `current_heading`. -/
def diff_to_0 (current_heading : ℚ) : ℚ :=
  let d := |current_heading - 0|
  if d > 180 then 360 - d else d

/-- Variable `diff_to_180` after lines 155-156, from the normalised `current_heading`. -/
def diff_to_180 (current_heading : ℚ) : ℚ :=
  let d := |current_heading - 180|
  if d > 180 then 360 - d else d

/-- Variable `nearest` of line 158: `(diff_to_0 < diff_to_180) ? 0 : 180`. -/
def nearest (current_heading : ℚ) : ℚ :=
  if diff_to_0 current_heading < diff_to_180 current_heading then 0 else 180

/-- Body of the `if` on the Y button: the heading `theta` is read, normalised, and the turn
command is issued. -/
def alignToNearest (theta : ℚ) : List Effect :=
  let current_heading := normalizeHeading theta
  [Effect.turnToHeading (nearest current_heading) 500 127 false]

/-! ## The operator-control loop (`main.cpp` lines 121-191) -/

/-- Locals `gutter_state` and `pneumatic_d_state` of `opcontrol`. -/
structure ToggleState where
  gutter_state : Bool
  pneumatic_d_state : Bool
  deriving DecidableEq, Repr

/-- Everything one pass through the loop body reads from the hardware. -/
structure Inputs where
  /-- Value of `controller.get_analog(E_CONTROLLER_ANALOG_LEFT_Y)`. -/
  leftY : Int
  /-- Value of `controller.get_analog(E_CONTROLLER_ANALOG_RIGHT_X)`. -/
  rightX : Int
  /-- Value of `controller.get_digital_new_press(E_CONTROLLER_DIGITAL_RIGHT)`. -/
  newPressRight : Bool
  /-- Value of `controller.get_digital_new_press(E_CONTROLLER_DIGITAL_LEFT)`. -/
  newPressLeft : Bool
  /-- Value of `controller.get_digital_new_press(E_CONTROLLER_DIGITAL_Y)`. -/
  newPressY : Bool
  /-- Value of `chassis.getPose().theta`. -/
  theta : ℚ
  /-- Value of `controller.get_digital(E_CONTROLLER_DIGITAL_A)`. -/
  heldA : Bool
  /-- Value of `controller.get_digital(E_CONTROLLER_DIGITAL_R1)`. -/
  heldR1 : Bool
  /-- Value of `controller.get_digital(E_CONTROLLER_DIGITAL_R2)`. -/
  heldR2 : Bool
  /-- Value of `controller.get_digital(E_CONTROLLER_DIGITAL_L1)`. -/
  heldL1 : Bool
  /-- Value of `controller.get_digital(E_CONTROLLER_DIGITAL_L2)`. -/
  heldL2 : Bool
  /-- Value of `color_sensor.get_proximity()`. -/
  proximity : Int
  /-- Value of `controller.is_connected()`. -/
  connected : Bool

/-- Names of the five intake control functions, as the spec's `MechanismCommand`. -/
inductive MechanismCommand where
  | Store
  | OuttakeTop
  | OuttakeMiddle
  | OuttakeBottom
  | Stop
  deriving DecidableEq, Repr

/-- The intake control function that a `MechanismCommand` names. -/
def MechanismCommand.run (proximity : Int) : MechanismCommand → List Effect
  | Store => intake_store proximity
  | OuttakeTop => outtake_top
  | OuttakeMiddle => outtake_middle
  | OuttakeBottom => outtake_bottom
  | Stop => stop_intake

/-- The `if / else if` chain of lines 170-180: which intake control function is called. -/
def intakeControls (i : Inputs) : MechanismCommand :=
  if i.heldR1 then MechanismCommand.Store
  else if i.heldR2 then MechanismCommand.OuttakeTop
  else if i.heldL1 then MechanismCommand.OuttakeMiddle
  else if i.heldL2 then MechanismCommand.OuttakeBottom
  else MechanismCommand.Stop

/-- Local `forward` after lines 164-167. No later statement reads it. -/
def forward (i : Inputs) : Int :=
  if i.heldA then -i.leftY else i.leftY

/-- One pass through the body of `while (true)` in `opcontrol`: the new values of the two
locals and the hardware calls made, in order. -/
def tick (s : ToggleState) (i : Inputs) : ToggleState × List Effect :=
  let leftY := i.leftY
  let rightX := i.rightX
  let e1 := [Effect.arcade leftY rightX false 0.6]
  let gutter_state := if i.newPressRight then !s.gutter_state else s.gutter_state
  let e2 := if i.newPressRight then [Effect.set_value Actuator.gutter gutter_state] else []
  let pneumatic_d_state := if i.newPressLeft then !s.pneumatic_d_state else s.pneumatic_d_state
  let e3 :=
    if i.newPressLeft then [Effect.set_value Actuator.pneumatic_d pneumatic_d_state] else []
  let e4 := if i.newPressY then alignToNearest i.theta else []
  let _forward := forward i
  let e5 := (intakeControls i).run i.proximity
  let e6 :=
    if !i.connected then [Effect.setBrakeMode BrakeMode.E_MOTOR_BRAKE_HOLD]
    else [Effect.setBrakeMode BrakeMode.E_MOTOR_BRAKE_COAST]
  let e7 := [Effect.delay 20]
  (⟨gutter_state, pneumatic_d_state⟩, e1 ++ e2 ++ e3 ++ e4 ++ e5 ++ e6 ++ e7)

/-- The locals of `opcontrol` before the loop is entered. -/
def initState : ToggleState :=
  ⟨false, false⟩

/-- The loop run over the inputs of finitely many consecutive passes, from state `s`. -/
def runTicks (s : ToggleState) : List Inputs → ToggleState × List Effect
  | [] => (s, [])
  | i :: rest =>
    let r := tick s i
    let r2 := runTicks r.1 rest
    (r2.1, r.2 ++ r2.2)

/-- Function `opcontrol`, observed over the inputs of its first passes. -/
def opcontrol (inputs : List Inputs) : ToggleState × List Effect :=
  runTicks initState inputs

/-! ## Projections of a trace -/

/-- The power written to motor `m` by an effect, if it is a `move` on `m`. -/
def Effect.powerOn (m : Motor) : Effect → Option Int
  | Effect.move m2 p => if m2 = m then some p else none
  | _ => none

/-- All powers written to motor `m`, in order. -/
def powersOn (m : Motor) (es : List Effect) : List Int :=
  es.filterMap (Effect.powerOn m)

/-- All powers written to any motor, in order. -/
def allPowers (es : List Effect) : List Int :=
  es.filterMap fun e => match e with
    | Effect.move _ p => some p
    | _ => none

/-- The value written to actuator `a` by an effect, if it is a `set_value` on `a`. -/
def Effect.valueOn (a : Actuator) : Effect → Option Bool
  | Effect.set_value a2 v => if a2 = a then some v else none
  | _ => none

/-- All values written to actuator `a`, in order. -/
def valuesOn (a : Actuator) (es : List Effect) : List Bool :=
  es.filterMap (Effect.valueOn a)

/-- All brake modes set, in order. -/
def brakeModes (es : List Effect) : List BrakeMode :=
  es.filterMap fun e => match e with
    | Effect.setBrakeMode mode => some mode
    | _ => none

/-- All `arcade` calls, in order. -/
def arcadeCalls (es : List Effect) : List (Int × Int × Bool × ℚ) :=
  es.filterMap fun e => match e with
    | Effect.arcade t u d b => some (t, u, d, b)
    | _ => none

/-- All `turnToHeading` calls, in order. -/
def turnCalls (es : List Effect) : List (ℚ × Int × Int × Bool) :=
  es.filterMap fun e => match e with
    | Effect.turnToHeading th t m a => some (th, t, m, a)
    | _ => none

/-- All `move` calls, in order. -/
def moveCalls (es : List Effect) : List (Motor × Int) :=
  es.filterMap fun e => match e with
    | Effect.move m p => some (m, p)
    | _ => none

/-! ## The table of the specification -/

/-- The table of spec §4.1, `computeMechanismPowers`, written from the spec's words:
(frontBottom, middle, backTop). -/
def specComputeMechanismPowers (command : MechanismCommand) (ballIsPresent : Bool) :
    Int × Int × Int :=
  match command with
  | MechanismCommand.Store => (-127, if ballIsPresent then 65 else 0, 0)
  | MechanismCommand.OuttakeTop => (-127, 127, 127)
  | MechanismCommand.OuttakeMiddle => (-127, 127, -127)
  | MechanismCommand.OuttakeBottom => (127, -127, 0)
  | MechanismCommand.Stop => (0, 0, 0)

/-- The circular distance of spec §4.2 step 4, written from the spec's words:
`min(|a-b|, 360-|a-b|)`. -/
def specCircularDistance (a b : ℚ) : ℚ :=
  min |a - b| (360 - |a - b|)

/-! ## Concrete passes used as examples -/

/-- All four of R1, R2, L1, L2 held: the pass calls `intake_store`. -/
def allFourHeld : Inputs :=
  { leftY := 0, rightX := 0, newPressRight := false, newPressLeft := false, newPressY := false,
    theta := 0, heldA := false, heldR1 := true, heldR2 := true, heldL1 := true, heldL2 := true,
    proximity := 0, connected := true }

/-- Only L2 held. -/
def onlyL2Held : Inputs :=
  { leftY := 0, rightX := 0, newPressRight := false, newPressLeft := false, newPressY := false,
    theta := 0, heldA := false, heldR1 := false, heldR2 := false, heldL1 := false,
    heldL2 := true, proximity := 0, connected := true }

/-- A pass in which only the Y button reports a new press, at heading `theta`. -/
def pressYAt (theta : ℚ) : Inputs :=
  { leftY := 0, rightX := 0, newPressRight := false, newPressLeft := false, newPressY := true,
    theta := theta, heldA := false, heldR1 := false, heldR2 := false, heldL1 := false,
    heldL2 := false, proximity := 0, connected := true }

/-- A pass in which RIGHT reports a new press and nothing else is pressed. -/
def pressRight : Inputs :=
  { leftY := 0, rightX := 0, newPressRight := true, newPressLeft := false, newPressY := false,
    theta := 0, heldA := false, heldR1 := false, heldR2 := false, heldL1 := false,
    heldL2 := false, proximity := 0, connected := true }

/-- A pass in which no new press is reported, while R1 and A are held. -/
def heldOnly : Inputs :=
  { leftY := 0, rightX := 0, newPressRight := false, newPressLeft := false, newPressY := false,
    theta := 0, heldA := true, heldR1 := true, heldR2 := false, heldL1 := false,
    heldL2 := false, proximity := 0, connected := true }

/-- The pass of the end-to-end scenario: leftY = 100, rightX = -50, proximity = 50, nothing
pressed, controller connected. -/
def scenarioInputs : Inputs :=
  { leftY := 100, rightX := -50, newPressRight := false, newPressLeft := false,
    newPressY := false, theta := 0, heldA := false, heldR1 := false, heldR2 := false,
    heldL1 := false, heldL2 := false, proximity := 50, connected := true }

/-! ## Lemmas on the normalisation loops -/

theorem addLoop_of_neg {h : ℚ} (hlt : h < 0) : addLoop h = addLoop (h + 360) := by
  rw [addLoop, if_pos hlt]

theorem addLoop_of_nonneg {h : ℚ} (hge : 0 ≤ h) : addLoop h = h := by
  rw [addLoop, if_neg (not_lt.mpr hge)]

theorem subLoop_of_ge {h : ℚ} (hge : 360 ≤ h) : subLoop h = subLoop (h - 360) := by
  rw [subLoop, if_pos hge]

theorem subLoop_of_lt {h : ℚ} (hlt : h < 360) : subLoop h = h := by
  rw [subLoop, if_neg (not_le.mpr hlt)]

/-- The first loop ends at a non-negative value, below 360 when it ran at all, having added
360 a whole number of times. -/
theorem addLoop_spec (h : ℚ) :
    0 ≤ addLoop h ∧ (h < 0 → addLoop h < 360) ∧ ∃ n : ℕ, addLoop h = h + 360 * n := by
  induction h using addLoop.induct with
  | case1 h hlt ih =>
    obtain ⟨ih1, ih2, n, ih3⟩ := ih
    rw [addLoop_of_neg hlt]
    refine ⟨ih1, fun _ => ?_, n + 1, ?_⟩
    · by_cases hn : h + 360 < 0
      · exact ih2 hn
      · rw [addLoop_of_nonneg (not_lt.mp hn)]
        linarith
    · rw [ih3]
      push_cast
      ring
  | case2 h hge =>
    rw [addLoop_of_nonneg (not_lt.mp hge)]
    exact ⟨not_lt.mp hge, fun hlt => absurd hlt hge, 0, by simp⟩

/-- The second loop, entered at a non-negative value, ends in `[0, 360)`, having subtracted
360 a whole number of times. -/
theorem subLoop_spec (h : ℚ) (h0 : 0 ≤ h) :
    0 ≤ subLoop h ∧ subLoop h < 360 ∧ ∃ m : ℕ, subLoop h = h - 360 * m := by
  induction h using subLoop.induct with
  | case1 h hge ih =>
    obtain ⟨ih1, ih2, m, ih3⟩ := ih (by linarith)
    rw [subLoop_of_ge hge]
    refine ⟨ih1, ih2, m + 1, ?_⟩
    rw [ih3]
    push_cast
    ring
  | case2 h hlt =>
    rw [subLoop_of_lt (not_le.mp hlt)]
    exact ⟨h0, not_le.mp hlt, 0, by simp⟩

theorem normalizeHeading_range (theta : ℚ) :
    0 ≤ normalizeHeading theta ∧ normalizeHeading theta < 360 := by
  obtain ⟨h1, h2, _⟩ := subLoop_spec (addLoop theta) (addLoop_spec theta).1
  exact ⟨h1, h2⟩

theorem normalizeHeading_of_range {theta : ℚ} (h0 : 0 ≤ theta) (h1 : theta < 360) :
    normalizeHeading theta = theta := by
  rw [normalizeHeading, addLoop_of_nonneg h0, subLoop_of_lt h1]

theorem addLoopFuel_enough (h : ℚ) :
    ∃ N : ℕ, ∀ fuel : ℕ, N ≤ fuel → addLoopFuel fuel h = some (addLoop h) := by
  induction h using addLoop.induct with
  | case1 h hlt ih =>
    obtain ⟨N, hN⟩ := ih
    refine ⟨N + 1, fun fuel hf => ?_⟩
    obtain ⟨f, rfl⟩ : ∃ f, fuel = f + 1 := ⟨fuel - 1, by omega⟩
    rw [addLoopFuel, if_pos hlt, addLoop_of_neg hlt]
    exact hN f (by omega)
  | case2 h hge =>
    refine ⟨1, fun fuel hf => ?_⟩
    obtain ⟨f, rfl⟩ : ∃ f, fuel = f + 1 := ⟨fuel - 1, by omega⟩
    rw [addLoopFuel, if_neg hge, addLoop_of_nonneg (not_lt.mp hge)]

theorem subLoopFuel_enough (h : ℚ) :
    ∃ N : ℕ, ∀ fuel : ℕ, N ≤ fuel → subLoopFuel fuel h = some (subLoop h) := by
  induction h using subLoop.induct with
  | case1 h hge ih =>
    obtain ⟨N, hN⟩ := ih
    refine ⟨N + 1, fun fuel hf => ?_⟩
    obtain ⟨f, rfl⟩ : ∃ f, fuel = f + 1 := ⟨fuel - 1, by omega⟩
    rw [subLoopFuel, if_pos hge, subLoop_of_ge hge]
    exact hN f (by omega)
  | case2 h hlt =>
    refine ⟨1, fun fuel hf => ?_⟩
    obtain ⟨f, rfl⟩ : ∃ f, fuel = f + 1 := ⟨fuel - 1, by omega⟩
    rw [subLoopFuel, if_neg hlt, subLoop_of_lt (not_le.mp hlt)]

theorem normalizeHeadingFuel_enough (theta : ℚ) :
    ∃ N : ℕ, ∀ fuel : ℕ, N ≤ fuel →
      normalizeHeadingFuel fuel theta = some (normalizeHeading theta) := by
  obtain ⟨N1, h1⟩ := addLoopFuel_enough theta
  obtain ⟨N2, h2⟩ := subLoopFuel_enough (addLoop theta)
  refine ⟨max N1 N2, fun fuel hf => ?_⟩
  rw [normalizeHeadingFuel, h1 fuel (le_trans (le_max_left _ _) hf)]
  exact h2 fuel (le_trans (le_max_right _ _) hf)

/-! ## The claims -/

/-- C10: for every heading `theta`, both normalisation loops terminate (some number of
evaluations of the loop conditions suffices, and any larger number gives the same value), the
value `h'` they end at satisfies `0 ≤ h' < 360`, `h' - theta` is an integer multiple of 360,
and a heading already in `[0, 360)` is returned unchanged. -/
theorem C10_normalize_terminates_in_range (theta : ℚ) :
    (∃ N : ℕ, ∀ fuel : ℕ, N ≤ fuel →
      normalizeHeadingFuel fuel theta = some (normalizeHeading theta)) ∧
    0 ≤ normalizeHeading theta ∧ normalizeHeading theta < 360 ∧
    (∃ k : ℤ, normalizeHeading theta - theta = 360 * k) ∧
    (0 ≤ theta → theta < 360 → normalizeHeading theta = theta) := by
  refine ⟨normalizeHeadingFuel_enough theta, (normalizeHeading_range theta).1,
    (normalizeHeading_range theta).2, ?_, fun h0 h1 => normalizeHeading_of_range h0 h1⟩
  obtain ⟨_, _, n, hn⟩ := addLoop_spec theta
  obtain ⟨_, _, m, hm⟩ := subLoop_spec (addLoop theta) (addLoop_spec theta).1
  refine ⟨(n : ℤ) - m, ?_⟩
  rw [normalizeHeading, hm, hn]
  push_cast
  ring

/-- C10 at `theta = -450` (ends at 270 after two additions) and at `theta = 725` (ends at 5
after two subtractions). -/
theorem C10_normalize_witness :
    normalizeHeading (-450) = 270 ∧ normalizeHeading 725 = 5 ∧
    normalizeHeadingFuel 3 (-450) = some 270 ∧ normalizeHeadingFuel 3 725 = some 5 ∧
    ((∃ N : ℕ, ∀ fuel : ℕ, N ≤ fuel →
      normalizeHeadingFuel fuel (-450) = some (normalizeHeading (-450))) ∧
    0 ≤ normalizeHeading (-450) ∧ normalizeHeading (-450) < 360 ∧
    (∃ k : ℤ, normalizeHeading (-450) - (-450) = 360 * k) ∧
    (0 ≤ (-450 : ℚ) → (-450 : ℚ) < 360 → normalizeHeading (-450) = -450)) := by
  refine ⟨?_, ?_, ?_, ?_, C10_normalize_terminates_in_range (-450)⟩
  · rw [normalizeHeading, addLoop_of_neg (by norm_num), addLoop_of_neg (by norm_num),
      addLoop_of_nonneg (by norm_num), subLoop_of_lt (by norm_num)]
    norm_num
  · rw [normalizeHeading, addLoop_of_nonneg (by norm_num), subLoop_of_ge (by norm_num),
      subLoop_of_ge (by norm_num), subLoop_of_lt (by norm_num)]
    norm_num
  · norm_num [normalizeHeadingFuel, addLoopFuel, subLoopFuel]
  · norm_num [normalizeHeadingFuel, addLoopFuel, subLoopFuel]

/-- C1: for each of the five intake control functions and every proximity reading, the calls
made are exactly one `move` on `front_bottom`, one on `middle` and one on `back_top`, in that
order and nothing else, with the powers of the table of spec §4.1 at
`ballPresent = (proximity > 100)`; both values of `ballPresent` occur; every power written is
in `[-127, 127]`. -/
theorem C1_mechanism_powers_match_table (command : MechanismCommand) (proximity : Int) :
    command.run proximity =
      [Effect.move Motor.front_bottom
          (specComputeMechanismPowers command (decide (proximity > 100))).1,
       Effect.move Motor.middle
          (specComputeMechanismPowers command (decide (proximity > 100))).2.1,
       Effect.move Motor.back_top
          (specComputeMechanismPowers command (decide (proximity > 100))).2.2] ∧
    (powersOn Motor.front_bottom (command.run proximity)).length = 1 ∧
    (powersOn Motor.middle (command.run proximity)).length = 1 ∧
    (powersOn Motor.back_top (command.run proximity)).length = 1 ∧
    (∀ p ∈ allPowers (command.run proximity), -127 ≤ p ∧ p ≤ 127) ∧
    (∀ b : Bool, ∃ q : Int, decide (q > 100) = b) := by
  have hb : ∀ b : Bool, ∃ q : Int, decide (q > 100) = b := by
    intro b
    cases b
    · exact ⟨100, by decide⟩
    · exact ⟨101, by decide⟩
  by_cases hp : proximity > 100 <;> cases command <;>
    simp [MechanismCommand.run, intake_store, outtake_top, outtake_middle, outtake_bottom,
      stop_intake, ballPresent, specComputeMechanismPowers, powersOn, allPowers,
      Effect.powerOn, hp, hb]

/-- C2: in every pass, the motor writes are those of exactly one intake control function, and
that function is chosen by R1 > R2 > L1 > L2: `intake_store` if R1 is held, otherwise
`outtake_top` if R2 is held, otherwise `outtake_middle` if L1 is held, otherwise
`outtake_bottom` if L2 is held, otherwise `stop_intake`. -/
theorem C2_dispatch_priority (s : ToggleState) (i : Inputs) :
    moveCalls (tick s i).2 = moveCalls ((intakeControls i).run i.proximity) ∧
    (∀ c : MechanismCommand,
      moveCalls (tick s i).2 = moveCalls (c.run i.proximity) → c = intakeControls i) ∧
    (i.heldR1 = true → intakeControls i = MechanismCommand.Store) ∧
    (i.heldR1 = false → i.heldR2 = true → intakeControls i = MechanismCommand.OuttakeTop) ∧
    (i.heldR1 = false → i.heldR2 = false → i.heldL1 = true →
      intakeControls i = MechanismCommand.OuttakeMiddle) ∧
    (i.heldR1 = false → i.heldR2 = false → i.heldL1 = false → i.heldL2 = true →
      intakeControls i = MechanismCommand.OuttakeBottom) ∧
    (i.heldR1 = false → i.heldR2 = false → i.heldL1 = false → i.heldL2 = false →
      intakeControls i = MechanismCommand.Stop) := by
  have hmove : moveCalls (tick s i).2 = moveCalls ((intakeControls i).run i.proximity) := by
    cases hr : i.newPressRight <;> cases hl : i.newPressLeft <;> cases hy : i.newPressY <;>
      cases hc : i.connected <;>
      simp [tick, moveCalls, alignToNearest, hr, hl, hy, hc, List.filterMap_append]
  refine ⟨hmove, ?_, ?_, ?_, ?_, ?_, ?_⟩
  · intro c hc
    rw [hmove] at hc
    by_cases hp : i.proximity > 100 <;>
      cases h1 : i.heldR1 <;> cases h2 : i.heldR2 <;> cases h3 : i.heldL1 <;>
      cases h4 : i.heldL2 <;> cases c <;>
      simp [intakeControls, MechanismCommand.run, intake_store, outtake_top, outtake_middle,
        outtake_bottom, stop_intake, ballPresent, moveCalls, h1, h2, h3, h4, hp] at hc ⊢
  all_goals
    intros
    simp_all [intakeControls]

/-- C2 with all four buttons held (`intake_store` is called) and with only L2 held
(`outtake_bottom` is called). -/
theorem C2_dispatch_priority_witness :
    intakeControls allFourHeld = MechanismCommand.Store ∧
    moveCalls (tick initState allFourHeld).2 =
      [(Motor.front_bottom, -127), (Motor.middle, 0), (Motor.back_top, 0)] ∧
    intakeControls onlyL2Held = MechanismCommand.OuttakeBottom ∧
    moveCalls (tick initState onlyL2Held).2 =
      [(Motor.front_bottom, 127), (Motor.middle, -127), (Motor.back_top, 0)] := by
  refine ⟨(C2_dispatch_priority initState allFourHeld).2.2.1 rfl, ?_,
    (C2_dispatch_priority initState onlyL2Held).2.2.2.2.2.1 rfl rfl rfl rfl, ?_⟩
  · rw [(C2_dispatch_priority initState allFourHeld).1]
    simp [intakeControls, allFourHeld, MechanismCommand.run, intake_store, ballPresent,
      moveCalls]
  · rw [(C2_dispatch_priority initState onlyL2Held).1]
    simp [intakeControls, onlyL2Held, MechanismCommand.run, outtake_bottom, moveCalls]

/-- C3: for every proximity reading `p`, the ball-presence condition of `intake_store` holds
exactly when `p > 100`, and the one power `intake_store` writes to the middle motor is 65 when
`p > 100` and 0 otherwise; at 100 it is false and 0, at 101 it is true and 65. -/
theorem C3_ball_threshold_strict (p : Int) :
    (ballPresent p = true ↔ p > 100) ∧
    powersOn Motor.middle (intake_store p) = [if p > 100 then 65 else 0] ∧
    ballPresent 100 = false ∧ powersOn Motor.middle (intake_store 100) = [0] ∧
    ballPresent 101 = true ∧ powersOn Motor.middle (intake_store 101) = [65] := by
  refine ⟨by simp [ballPresent], ?_, by decide, by decide, by decide, by decide⟩
  by_cases hp : p > 100 <;> simp [intake_store, ballPresent, powersOn, Effect.powerOn, hp]

/-! ### Heading alignment -/

theorem diff_to_0_eq_spec (h : ℚ) : diff_to_0 h = specCircularDistance h 0 := by
  unfold diff_to_0 specCircularDistance
  simp only []
  split_ifs with hd
  · rw [min_eq_right (by linarith)]
  · rw [min_eq_left (by linarith)]

theorem diff_to_180_eq_spec (h : ℚ) : diff_to_180 h = specCircularDistance h 180 := by
  unfold diff_to_180 specCircularDistance
  simp only []
  split_ifs with hd
  · rw [min_eq_right (by linarith)]
  · rw [min_eq_left (by linarith)]

theorem turnCalls_tick (s : ToggleState) (i : Inputs) :
    turnCalls (tick s i).2 =
      if i.newPressY then [(nearest (normalizeHeading i.theta), 500, 127, false)] else [] := by
  cases hr : i.newPressRight <;> cases hl : i.newPressLeft <;> cases hy : i.newPressY <;>
    cases hc : i.connected <;> cases hm : intakeControls i <;>
    by_cases hp : i.proximity > 100 <;>
    simp [tick, turnCalls, alignToNearest, MechanismCommand.run, intake_store, outtake_top,
      outtake_middle, outtake_bottom, stop_intake, ballPresent, hr, hl, hy, hc, hm, hp]

theorem diff_to_0_of_le {h : ℚ} (h0 : 0 ≤ h) (h1 : h ≤ 180) : diff_to_0 h = h := by
  unfold diff_to_0
  simp only [sub_zero, abs_of_nonneg h0]
  rw [if_neg (by linarith)]

theorem diff_to_0_of_gt {h : ℚ} (h1 : 180 < h) : diff_to_0 h = 360 - h := by
  unfold diff_to_0
  simp only [sub_zero, abs_of_nonneg (by linarith : (0 : ℚ) ≤ h)]
  rw [if_pos h1]

theorem diff_to_180_of_le {h : ℚ} (h0 : 0 ≤ h) (h1 : h ≤ 180) : diff_to_180 h = 180 - h := by
  unfold diff_to_180
  simp only [abs_of_nonpos (by linarith : h - 180 ≤ 0)]
  rw [if_neg (by linarith)]
  ring

theorem diff_to_180_of_gt {h : ℚ} (h1 : 180 < h) (h2 : h < 360) : diff_to_180 h = h - 180 := by
  unfold diff_to_180
  simp only [abs_of_nonneg (by linarith : (0 : ℚ) ≤ h - 180)]
  rw [if_neg (by linarith)]

/-- C4 as stated fails: at heading 90, and at heading 270, the two distances are equal (90 and
90) and the one `turnToHeading` call of the pass targets 180, not 0. -/
theorem C4_tie_counterexample :
    diff_to_0 (normalizeHeading 90) = 90 ∧ diff_to_180 (normalizeHeading 90) = 90 ∧
    turnCalls (tick initState (pressYAt 90)).2 = [(180, 500, 127, false)] ∧
    turnCalls (tick initState (pressYAt 90)).2 ≠ [(0, 500, 127, false)] ∧
    diff_to_0 (normalizeHeading 270) = 90 ∧ diff_to_180 (normalizeHeading 270) = 90 ∧
    turnCalls (tick initState (pressYAt 270)).2 = [(180, 500, 127, false)] ∧
    turnCalls (tick initState (pressYAt 270)).2 ≠ [(0, 500, 127, false)] := by
  have n90 : normalizeHeading 90 = 90 := normalizeHeading_of_range (by norm_num) (by norm_num)
  have n270 : normalizeHeading 270 = 270 :=
    normalizeHeading_of_range (by norm_num) (by norm_num)
  have a90 : diff_to_0 (90 : ℚ) = 90 := diff_to_0_of_le (by norm_num) (by norm_num)
  have b90 : diff_to_180 (90 : ℚ) = 90 := by
    rw [diff_to_180_of_le (by norm_num) (by norm_num)]
    norm_num
  have a270 : diff_to_0 (270 : ℚ) = 90 := by
    rw [diff_to_0_of_gt (by norm_num)]
    norm_num
  have b270 : diff_to_180 (270 : ℚ) = 90 := by
    rw [diff_to_180_of_gt (by norm_num) (by norm_num)]
    norm_num
  have t90 : turnCalls (tick initState (pressYAt 90)).2 = [(180, 500, 127, false)] := by
    rw [turnCalls_tick]
    simp [pressYAt, nearest, n90, a90, b90]
  have t270 : turnCalls (tick initState (pressYAt 270)).2 = [(180, 500, 127, false)] := by
    rw [turnCalls_tick]
    simp [pressYAt, nearest, n270, a270, b270]
  refine ⟨by rw [n90, a90], by rw [n90, b90], t90, ?_, by rw [n270, a270], by rw [n270, b270],
    t270, ?_⟩
  · rw [t90]
    simp
  · rw [t270]
    simp

/-- C4, amended: in a pass in which the Y button reports a new press, whenever the normalised
heading is equally far from 0 and from 180, the one `turnToHeading` call targets 180 (ties
favour 180), with timeout 500, maxSpeed 127 and async false. -/
theorem C4_tie_targets_180 (s : ToggleState) (i : Inputs) (hy : i.newPressY = true)
    (htie : diff_to_0 (normalizeHeading i.theta) = diff_to_180 (normalizeHeading i.theta)) :
    turnCalls (tick s i).2 = [(180, 500, 127, false)] := by
  rw [turnCalls_tick, if_pos hy, nearest, htie, if_neg (lt_irrefl _)]

/-- C4 amended, at headings 90 and 270: both are ties and both give target 180. -/
theorem C4_tie_targets_180_witness :
    turnCalls (tick initState (pressYAt 90)).2 = [(180, 500, 127, false)] ∧
    turnCalls (tick initState (pressYAt 270)).2 = [(180, 500, 127, false)] := by
  have n90 : normalizeHeading 90 = 90 := normalizeHeading_of_range (by norm_num) (by norm_num)
  have n270 : normalizeHeading 270 = 270 :=
    normalizeHeading_of_range (by norm_num) (by norm_num)
  constructor
  · apply C4_tie_targets_180 initState (pressYAt 90) rfl
    show diff_to_0 (normalizeHeading 90) = diff_to_180 (normalizeHeading 90)
    rw [n90, diff_to_0_of_le (by norm_num) (by norm_num),
      diff_to_180_of_le (by norm_num) (by norm_num)]
    norm_num
  · apply C4_tie_targets_180 initState (pressYAt 270) rfl
    show diff_to_0 (normalizeHeading 270) = diff_to_180 (normalizeHeading 270)
    rw [n270, diff_to_0_of_gt (by norm_num), diff_to_180_of_gt (by norm_num) (by norm_num)]
    norm_num

/-- C5: in a pass in which the Y button reports a new press, with `h'` the normalised heading:
`h'` is in `[0, 360)`; `diff_to_0` and `diff_to_180` are the circular distances of `h'` to 0
and to 180; exactly one `turnToHeading` call is made, with timeout 500 and maxSpeed 127; and
when the two distances differ its target is the one of 0 and 180 at strictly smaller
distance. -/
theorem C5_nearest_target (s : ToggleState) (i : Inputs) (hy : i.newPressY = true) :
    0 ≤ normalizeHeading i.theta ∧ normalizeHeading i.theta < 360 ∧
    diff_to_0 (normalizeHeading i.theta) = specCircularDistance (normalizeHeading i.theta) 0 ∧
    diff_to_180 (normalizeHeading i.theta) =
      specCircularDistance (normalizeHeading i.theta) 180 ∧
    (∃ target : ℚ, turnCalls (tick s i).2 = [(target, 500, 127, false)]) ∧
    (specCircularDistance (normalizeHeading i.theta) 0 <
        specCircularDistance (normalizeHeading i.theta) 180 →
      turnCalls (tick s i).2 = [(0, 500, 127, false)]) ∧
    (specCircularDistance (normalizeHeading i.theta) 180 <
        specCircularDistance (normalizeHeading i.theta) 0 →
      turnCalls (tick s i).2 = [(180, 500, 127, false)]) := by
  have ht := turnCalls_tick s i
  rw [if_pos hy] at ht
  refine ⟨(normalizeHeading_range _).1, (normalizeHeading_range _).2, diff_to_0_eq_spec _,
    diff_to_180_eq_spec _, ⟨_, ht⟩, fun hlt => ?_, fun hlt => ?_⟩
  · rw [← diff_to_0_eq_spec, ← diff_to_180_eq_spec] at hlt
    rw [ht, nearest, if_pos hlt]
  · rw [← diff_to_0_eq_spec, ← diff_to_180_eq_spec] at hlt
    rw [ht, nearest, if_neg (not_lt.mpr hlt.le)]

/-- C5 at heading 91: `diff_to_0 = 91`, `diff_to_180 = 89`, target 180. -/
theorem C5_nearest_target_witness :
    diff_to_0 (normalizeHeading 91) = 91 ∧ diff_to_180 (normalizeHeading 91) = 89 ∧
    turnCalls (tick initState (pressYAt 91)).2 = [(180, 500, 127, false)] := by
  have n91 : normalizeHeading 91 = 91 := normalizeHeading_of_range (by norm_num) (by norm_num)
  have a91 : diff_to_0 (91 : ℚ) = 91 := diff_to_0_of_le (by norm_num) (by norm_num)
  have b91 : diff_to_180 (91 : ℚ) = 89 := by
    rw [diff_to_180_of_le (by norm_num) (by norm_num)]
    norm_num
  refine ⟨by rw [n91, a91], by rw [n91, b91], ?_⟩
  apply (C5_nearest_target initState (pressYAt 91) rfl).2.2.2.2.2.2
  show specCircularDistance (normalizeHeading 91) 180 < specCircularDistance (normalizeHeading 91) 0
  rw [← diff_to_0_eq_spec, ← diff_to_180_eq_spec, n91, a91, b91]
  norm_num

/-! ### Toggles, brake mode, and whole passes -/

theorem tick_state (s : ToggleState) (i : Inputs) :
    (tick s i).1 =
      ⟨if i.newPressRight then !s.gutter_state else s.gutter_state,
       if i.newPressLeft then !s.pneumatic_d_state else s.pneumatic_d_state⟩ :=
  rfl

theorem valuesOn_gutter_tick (s : ToggleState) (i : Inputs) :
    valuesOn Actuator.gutter (tick s i).2 =
      if i.newPressRight then [!s.gutter_state] else [] := by
  cases hr : i.newPressRight <;> cases hl : i.newPressLeft <;> cases hy : i.newPressY <;>
    cases hc : i.connected <;> cases hm : intakeControls i <;>
    by_cases hp : i.proximity > 100 <;>
    simp [tick, valuesOn, Effect.valueOn, List.filterMap_cons, alignToNearest, MechanismCommand.run, intake_store, outtake_top,
      outtake_middle, outtake_bottom, stop_intake, ballPresent, hr, hl, hy, hc, hm, hp]

theorem valuesOn_pneumatic_d_tick (s : ToggleState) (i : Inputs) :
    valuesOn Actuator.pneumatic_d (tick s i).2 =
      if i.newPressLeft then [!s.pneumatic_d_state] else [] := by
  cases hr : i.newPressRight <;> cases hl : i.newPressLeft <;> cases hy : i.newPressY <;>
    cases hc : i.connected <;> cases hm : intakeControls i <;>
    by_cases hp : i.proximity > 100 <;>
    simp [tick, valuesOn, Effect.valueOn, List.filterMap_cons, alignToNearest, MechanismCommand.run, intake_store, outtake_top,
      outtake_middle, outtake_bottom, stop_intake, ballPresent, hr, hl, hy, hc, hm, hp]

theorem valuesOn_append (a : Actuator) (xs ys : List Effect) :
    valuesOn a (xs ++ ys) = valuesOn a xs ++ valuesOn a ys := by
  simp [valuesOn, List.filterMap_append]

/-- Passes without a new press of RIGHT leave `gutter_state` alone and never write `gutter`. -/
theorem runTicks_no_right_edge (rest : List Inputs) :
    ∀ s : ToggleState, (∀ j ∈ rest, j.newPressRight = false) →
      (runTicks s rest).1.gutter_state = s.gutter_state ∧
      valuesOn Actuator.gutter (runTicks s rest).2 = [] := by
  induction rest with
  | nil =>
    intro s _
    exact ⟨rfl, rfl⟩
  | cons j rest ih =>
    intro s hno
    have hj : j.newPressRight = false := hno j (List.mem_cons_self _ _)
    have hrest := ih (tick s j).1 (fun k hk => hno k (List.mem_cons_of_mem _ hk))
    have hs : (tick s j).1.gutter_state = s.gutter_state := by
      rw [tick_state]
      simp [hj]
    have hv : valuesOn Actuator.gutter (tick s j).2 = [] := by
      rw [valuesOn_gutter_tick]
      simp [hj]
    constructor
    · show (runTicks (tick s j).1 rest).1.gutter_state = s.gutter_state
      rw [hrest.1, hs]
    · show valuesOn Actuator.gutter ((tick s j).2 ++ (runTicks (tick s j).1 rest).2) = []
      rw [valuesOn_append, hv, hrest.2]
      rfl

/-- C6: both toggle booleans start false. In every pass and for each toggle (RIGHT with
`gutter_state` and `gutter`, LEFT with `pneumatic_d_state` and `pneumatic_d`): without a new
press of its button the boolean is unchanged and its actuator is not written, whatever the
other inputs; with a new press the boolean is flipped and the new value is written once to its
actuator. Over a pass with a new press of RIGHT followed by any passes without one,
`gutter_state` ends at the flipped value and `gutter` was written once. -/
theorem C6_toggles_change_only_on_new_press (s : ToggleState) (i : Inputs)
    (rest : List Inputs) :
    initState = ⟨false, false⟩ ∧
    (i.newPressRight = false →
      (tick s i).1.gutter_state = s.gutter_state ∧
      valuesOn Actuator.gutter (tick s i).2 = []) ∧
    (i.newPressRight = true →
      (tick s i).1.gutter_state = (!s.gutter_state) ∧
      valuesOn Actuator.gutter (tick s i).2 = [!s.gutter_state]) ∧
    (i.newPressLeft = false →
      (tick s i).1.pneumatic_d_state = s.pneumatic_d_state ∧
      valuesOn Actuator.pneumatic_d (tick s i).2 = []) ∧
    (i.newPressLeft = true →
      (tick s i).1.pneumatic_d_state = (!s.pneumatic_d_state) ∧
      valuesOn Actuator.pneumatic_d (tick s i).2 = [!s.pneumatic_d_state]) ∧
    (i.newPressRight = true → (∀ j ∈ rest, j.newPressRight = false) →
      (runTicks s (i :: rest)).1.gutter_state = (!s.gutter_state) ∧
      valuesOn Actuator.gutter (runTicks s (i :: rest)).2 = [!s.gutter_state]) := by
  refine ⟨rfl, ?_, ?_, ?_, ?_, ?_⟩
  · intro h
    rw [valuesOn_gutter_tick, tick_state]
    simp [h]
  · intro h
    rw [valuesOn_gutter_tick, tick_state]
    simp [h]
  · intro h
    rw [valuesOn_pneumatic_d_tick, tick_state]
    simp [h]
  · intro h
    rw [valuesOn_pneumatic_d_tick, tick_state]
    simp [h]
  · intro h hno
    have hrest := runTicks_no_right_edge rest (tick s i).1 hno
    have hs : (tick s i).1.gutter_state = (!s.gutter_state) := by
      rw [tick_state]
      simp [h]
    have hv : valuesOn Actuator.gutter (tick s i).2 = [!s.gutter_state] := by
      rw [valuesOn_gutter_tick]
      simp [h]
    constructor
    · show (runTicks (tick s i).1 rest).1.gutter_state = (!s.gutter_state)
      rw [hrest.1, hs]
    · show valuesOn Actuator.gutter ((tick s i).2 ++ (runTicks (tick s i).1 rest).2) = _
      rw [valuesOn_append, hv, hrest.2]
      rfl

/-- C6 from the start of `opcontrol`: one new press of RIGHT followed by two passes without
one leaves `gutter_state` true and `pneumatic_d_state` false, with `gutter` written once. -/
theorem C6_toggles_witness :
    (opcontrol [pressRight, heldOnly, heldOnly]).1.gutter_state = true ∧
    valuesOn Actuator.gutter (opcontrol [pressRight, heldOnly, heldOnly]).2 = [true] ∧
    (tick initState heldOnly).1 = initState := by
  have h := (C6_toggles_change_only_on_new_press initState pressRight
    [heldOnly, heldOnly]).2.2.2.2.2 rfl (by simp [heldOnly])
  exact ⟨h.1, h.2, rfl⟩

/-- C7: in a pass with no new press and no button held, the controller connected, the calls
made are exactly `arcade(leftY, rightX, false, 0.6)`, `move(0)` on each of the three motors,
`setBrakeMode(COAST)` and `delay(20)`, whatever the proximity reading and the heading; the
toggle state is unchanged. -/
theorem C7_idle_pass (s : ToggleState) (i : Inputs)
    (hr : i.newPressRight = false) (hl : i.newPressLeft = false) (hy : i.newPressY = false)
    (_hA : i.heldA = false) (h1 : i.heldR1 = false) (h2 : i.heldR2 = false)
    (h3 : i.heldL1 = false) (h4 : i.heldL2 = false) (hc : i.connected = true) :
    tick s i =
      (s, [Effect.arcade i.leftY i.rightX false 0.6,
           Effect.move Motor.front_bottom 0, Effect.move Motor.middle 0,
           Effect.move Motor.back_top 0,
           Effect.setBrakeMode BrakeMode.E_MOTOR_BRAKE_COAST,
           Effect.delay 20]) := by
  simp [tick, intakeControls, MechanismCommand.run, stop_intake, hr, hl, hy, h1, h2, h3, h4, hc]

/-- C7 at leftY = 100, rightX = -50, proximity = 50. -/
theorem C7_idle_pass_witness :
    tick initState scenarioInputs =
      (initState, [Effect.arcade 100 (-50) false 0.6,
           Effect.move Motor.front_bottom 0, Effect.move Motor.middle 0,
           Effect.move Motor.back_top 0,
           Effect.setBrakeMode BrakeMode.E_MOTOR_BRAKE_COAST,
           Effect.delay 20]) :=
  C7_idle_pass initState scenarioInputs rfl rfl rfl rfl rfl rfl rfl rfl rfl

/-- C8: in every pass `setBrakeMode` is called exactly once, with HOLD when the controller is
reported not connected and COAST otherwise, whatever the toggle state and the other inputs;
the mode is HOLD exactly when the controller is not connected. -/
theorem C8_brake_mode (s : ToggleState) (i : Inputs) :
    brakeModes (tick s i).2 =
      [if i.connected then BrakeMode.E_MOTOR_BRAKE_COAST else BrakeMode.E_MOTOR_BRAKE_HOLD] ∧
    (brakeModes (tick s i).2 = [BrakeMode.E_MOTOR_BRAKE_HOLD] ↔ i.connected = false) := by
  cases hr : i.newPressRight <;> cases hl : i.newPressLeft <;> cases hy : i.newPressY <;>
    cases hc : i.connected <;> cases hm : intakeControls i <;>
    by_cases hp : i.proximity > 100 <;>
    simp [tick, brakeModes, alignToNearest, MechanismCommand.run, intake_store, outtake_top,
      outtake_middle, outtake_bottom, stop_intake, ballPresent, hr, hl, hy, hc, hm, hp]

/-- The calls of one pass, segment by segment in program order. -/
theorem tick_effects (s : ToggleState) (i : Inputs) :
    (tick s i).2 =
      [Effect.arcade i.leftY i.rightX false 0.6] ++
      (if i.newPressRight then [Effect.set_value Actuator.gutter (!s.gutter_state)] else []) ++
      (if i.newPressLeft then
        [Effect.set_value Actuator.pneumatic_d (!s.pneumatic_d_state)] else []) ++
      (if i.newPressY then alignToNearest i.theta else []) ++
      (intakeControls i).run i.proximity ++
      (if !i.connected then [Effect.setBrakeMode BrakeMode.E_MOTOR_BRAKE_HOLD]
        else [Effect.setBrakeMode BrakeMode.E_MOTOR_BRAKE_COAST]) ++
      [Effect.delay 20] := by
  cases hr : i.newPressRight <;> cases hl : i.newPressLeft <;> simp [tick, hr, hl]

theorem arcadeCalls_run (c : MechanismCommand) (p : Int) : arcadeCalls (c.run p) = [] := by
  by_cases hp : p > 100 <;> cases c <;>
    simp [MechanismCommand.run, intake_store, outtake_top, outtake_middle, outtake_bottom,
      stop_intake, ballPresent, arcadeCalls, hp]

/-- C9: replacing the level of button A by any value changes neither the calls made in a pass
nor the resulting toggle state; the one `arcade` call always has `leftY` as read for its first
argument, although the local `forward` is `-leftY` while A is held. -/
theorem C9_reverse_button_has_no_effect (s : ToggleState) (i : Inputs) (a : Bool) :
    tick s { i with heldA := a } = tick s i ∧
    arcadeCalls (tick s i).2 = [(i.leftY, i.rightX, false, 0.6)] ∧
    forward { i with heldA := true } = -i.leftY ∧
    forward { i with heldA := false } = i.leftY := by
  refine ⟨rfl, ?_, by simp [forward], by simp [forward]⟩
  rw [tick_effects]
  generalize (0.6 : ℚ) = c
  have hrun := arcadeCalls_run (intakeControls i) i.proximity
  unfold arcadeCalls at hrun ⊢
  cases hr : i.newPressRight <;> cases hl : i.newPressLeft <;> cases hy : i.newPressY <;>
    cases hc : i.connected <;>
    simp [List.filterMap_append, alignToNearest, hrun]

end Marshmallow
